import Mathlib

/-!
Shallow embedding of the `migrate-to-w3up` streaming migration pipeline
(`src/w32023-to-w3up.js`, `src/w3up-migration.js`) for checking the
natural-language specification against the code.

JavaScript machine values are modelled as follows: strings are `String`,
JS numbers that arise here (content-length, HTTP statuses, counts) are
`Int`/`Nat`, thrown JS exceptions are an explicit `JsError` carried in
`Except`, and JS `Map` objects are insertion-ordered association lists.
External collaborators (the part fetcher, the w3up connection, the
presigned-PUT endpoint) are oracles supplied as functions in an
environment record, exactly at the call boundaries the code uses them.
-/

namespace MigrateToW3up

/-- Source upload descriptor `W32023Upload` (src/w32023.js): the fields the
pipeline reads are `cid` and `parts`; the other JSON fields are opaque
pass-through payload, kept here as one opaque string. -/
structure W32023Upload where
  cid : String
  parts : List String
  payload : String := ""
  deriving Repr, DecidableEq

/-- Thrown JS exception values distinguished the way the code distinguishes
them: `dom name` is a `DOMException` with its `name` property (the code
tests `error instanceof DOMException && error.name === 'AbortError'`),
`err msg` is a plain `Error` with its message. -/
inductive JsError where
  | dom (name : String)
  | err (msg : String)
  deriving Repr, DecidableEq

/-- Test used at src/w32023-to-w3up.js:46 to decide whether a caught
exception is a cancellation abort. -/
def isAbortError : JsError → Bool
  | .dom name => name = "AbortError"
  | .err _ => false

/-- Result carried in `receipt.out` of a `store/add` invocation:
`ok` holds a `StoreAddSuccess`, `error` is the failure payload. -/
inductive StoreAddOut (ok : Type) where
  | ok (s : ok)
  | error (payload : String)
  deriving Repr, DecidableEq

/-- Fields of a `StoreAddSuccess` that the code reads: `status`
(switched on at src/w32023-to-w3up.js:387), and `url`/`headers` used to
build the presigned PUT when `status` is `upload`. -/
structure StoreAddSuccess where
  status : String
  url : String
  headers : List (String × String)
  deriving Repr, DecidableEq

/-- Cause attached to a part or upload failure: either a thrown exception,
the `receipt.out.error` payload of a failed `store/add`, or the aggregate
`Error` built at src/w32023-to-w3up.js:269 whose message reports
`failed/total` upload parts (represented by the two counts). -/
inductive Cause where
  | thrown (e : JsError)
  | receiptError (payload : String)
  | someParts (failed total : Nat)
  deriving Repr, DecidableEq

/-- Outcome of migrating one part: `MigratedUploadOnePart` on success
(part cid, owning upload, store/add success, optional copy-response
status), `UploadPartMigrationFailure` otherwise (part cid, owning upload,
cause) — src/w3up-migration.js. -/
inductive PartResult where
  | success (part : String) (upload : W32023Upload) (add : StoreAddSuccess) (copy : Option Nat)
  | failure (part : String) (upload : W32023Upload) (cause : Cause)
  deriving Repr, DecidableEq

/-- Part cid of a part result (`.part` in the code). -/
def PartResult.part : PartResult → String
  | .success p _ _ _ => p
  | .failure p _ _ => p

/-- Owning upload of a part result (`.upload` in the code). -/
def PartResult.upload : PartResult → W32023Upload
  | .success _ u _ _ => u
  | .failure _ u _ => u

/-- Discriminant the code uses for failures: `'cause' in item` is true
exactly for the failure class (src/w32023-to-w3up.js:261,67). -/
def PartResult.isFailure : PartResult → Bool
  | .success _ _ _ _ => false
  | .failure _ _ _ => true

/-! ### JS primitives: `parseInt(s, 10)` and truthiness of content-length -/

/-- Whitespace skipped by JS `parseInt` before the number. -/
def isJsSpace (c : Char) : Bool :=
  c = ' ' || c = '\t' || c = '\n' || c = '\r' || c = '\x0b' || c = '\x0c'

/-- Digits folded to their natural-number value. -/
def digitsToNat (ds : List Char) : Nat :=
  ds.foldl (fun acc c => acc * 10 + (c.toNat - '0'.toNat)) 0

/-- JS `parseInt(s, 10)`: skip leading whitespace, read an optional sign,
then the longest prefix of decimal digits; `NaN` (here `none`) when that
prefix is empty. Trailing garbage after the digits is ignored, exactly as
`parseInt` ignores it. -/
def jsParseIntDec (s : String) : Option Int :=
  let cs := s.toList.dropWhile isJsSpace
  let signAndRest : Int × List Char :=
    match cs with
    | '-' :: t => (-1, t)
    | '+' :: t => (1, t)
    | t => (1, t)
  let digits := signAndRest.2.takeWhile Char.isDigit
  if digits.isEmpty then none
  else some (signAndRest.1 * (digitsToNat digits : Int))

/-- Response to a part fetch, reduced to the fields the code reads:
the `content-length` header (absent is `none`) and the response url used
in the error message. The streaming body is owned by the caller and never
inspected by the embedded functions. -/
structure PartResponse where
  contentLength : Option String
  url : String := ""
  deriving Repr, DecidableEq

/-- Argument record `nb` of a `store/add` invocation. `Link.parse` of the
part cid is an external codec and is modelled as the cid string itself. -/
structure StoreAddNb where
  link : String
  size : Int
  deriving Repr, DecidableEq

/-- Embedding of `carPartToStoreAddNb` (src/w32023-to-w3up.js:204):
`carSize = carSizeString && parseInt(carSizeString, 10)`, then
`if (!carSize) throw`. A missing header (`null`) and the empty string are
falsy, as are `NaN` and `0`; any nonzero integer — negative included —
is truthy and is used as the size. -/
def carPartToStoreAddNb (part : String) (response : PartResponse) : Except JsError StoreAddNb :=
  let carSize : Option Int :=
    match response.contentLength with
    | none => none
    | some s =>
      if s = "" then none
      else
        match jsParseIntDec s with
        | none => none
        | some n => if n = 0 then none else some n
  match carSize with
  | none => .error (.err ("unable to determine carSize for response to " ++ response.url))
  | some n => .ok { link := part, size := n }

/-- PUT request issued to the presigned destination url. -/
structure PutRequest where
  url : String
  headers : List (String × String)
  deriving Repr, DecidableEq

/-- Embedding of `uploadBlockForStoreAddSuccess` (src/w32023-to-w3up.js:382).
The first component lists the HTTP PUT requests issued (the oracle `put`
returns the response status for a request); the second is the returned
copy-response status (`none` when the switch hit `done` and returned
without transferring bytes) or the thrown error. -/
def uploadBlockForStoreAddSuccess (s : StoreAddSuccess) (put : String → List (String × String) → Nat) :
    List PutRequest × Except JsError (Option Nat) :=
  if s.status = "done" then
    ([], .ok none)
  else if s.status = "upload" then
    let status := put s.url s.headers
    ([{ url := s.url, headers := s.headers }],
      if 200 ≤ status ∧ status < 300 then .ok (some status)
      else .error (.err "error sending car bytes to url from store/add response"))
  else
    ([], .error (.err ("unexpected store/add success status: " ++ s.status)))

/-! ### JS `Map` as an insertion-ordered association list -/

/-- JS `Map.has`. -/
def mapHas {β : Type} (m : List (String × β)) (k : String) : Bool :=
  m.any (fun kv => kv.1 = k)

/-- JS `Map.get` (returning `undefined` as `none`). -/
def mapGet {β : Type} (m : List (String × β)) (k : String) : Option β :=
  (m.find? (fun kv => kv.1 = k)).map (fun kv => kv.2)

/-- JS `Map.set`: overwrite the entry in place when the key is present
(keys of a JS `Map` are unique, so replacing the first occurrence is
that), append otherwise; insertion order is preserved. -/
def mapSet {β : Type} : List (String × β) → String → β → List (String × β)
  | [], k, v => [(k, v)]
  | kv :: rest, k, v =>
    if kv.1 = k then (k, v) :: rest
    else kv :: mapSet rest k v

/-- JS `Map.delete`. -/
def mapDelete {β : Type} (m : List (String × β)) (k : String) : List (String × β) :=
  m.filter (fun kv => kv.1 ≠ k)

/-- Accumulator map of the assembler: part cid to part result, one per
upload (`Map<part.cid, migratedPart>` in the code). -/
abbrev PartMap := List (String × PartResult)

/-- Outer assembler state: upload cid to accumulator
(`Map<upload.cid, Map<part.cid, ...>>` in the code). -/
abbrev UploadsMap := List (String × PartMap)

/-- Items emitted by the assembler: `UploadMigrationFailure` when at least
one part failed, otherwise `MigratedUploadParts` (upload with all parts,
ready for `upload/add`). -/
inductive CollectOutput where
  | failure (upload : W32023Upload) (parts : PartMap) (cause : Cause)
  | ready (upload : W32023Upload) (parts : PartMap)
  deriving Repr, DecidableEq

/-- Embedding of the generator `collectMigratedParts`
(src/w32023-to-w3up.js:229): seed an empty accumulator on first sighting
of the upload cid, insert the event under its part cid, and when no
element of `upload.parts` is missing from the accumulator, delete the
accumulator and emit exactly one item — an `UploadMigrationFailure`
carrying the count of failed entries out of `upload.parts.length` when
any entry is a failure, the all-parts value otherwise. Returns the new
state together with the list of emitted items. -/
def collectMigratedParts (uploadCidToParts : UploadsMap) (migratedPart : PartResult) :
    UploadsMap × List CollectOutput :=
  let upload := migratedPart.upload
  let st1 := if mapHas uploadCidToParts upload.cid then uploadCidToParts
             else mapSet uploadCidToParts upload.cid []
  let partsForUpload := (mapGet st1 upload.cid).getD []
  let partsForUpload2 := mapSet partsForUpload migratedPart.part migratedPart
  let missingPart := upload.parts.any (fun part => ! mapHas partsForUpload2 part)
  if missingPart then
    (mapSet st1 upload.cid partsForUpload2, [])
  else
    let st2 := mapDelete st1 upload.cid
    let partFailureCount := (partsForUpload2.filter (fun kv => kv.2.isFailure)).length
    if 0 < partFailureCount then
      (st2, [.failure upload partsForUpload2 (.someParts partFailureCount upload.parts.length)])
    else
      (st2, [.ready upload partsForUpload2])

/-- Embedding of `CollectMigratedUploadParts.transform`
(src/w32023-to-w3up.js:310): it calls `collectMigratedParts(input, this)`,
and the instance carries only `signal` — it never stores an
`uploadCidToParts` property — so the destructuring default `new Map`
makes every call run against a fresh empty accumulator state. -/
def collectStageTransform (input : PartResult) : List CollectOutput :=
  (collectMigratedParts [] input).2

/-! ### migratePart and its catch wrapper -/

/-- Part of an upload paired with its owning upload
(`FetchableUploadPart`; the bound `fetch` closure lives in the
environment oracle keyed by the part cid). -/
structure FetchableUploadPart where
  part : String
  upload : W32023Upload
  deriving Repr, DecidableEq

/-- Receipt of an `upload/add` invocation reduced to the only field the
code reads: the truthiness of `receipt.out.ok`. -/
structure UploadAddReceipt where
  ok : Bool
  deriving Repr, DecidableEq

/-- External collaborators of one migration run: the part fetcher, the
w3up `store/add` and `upload/add` invocation endpoints, and the
presigned-PUT endpoint. Each models one awaited call boundary; `Except`
results model calls that may throw. -/
structure MigrateEnv where
  fetch : String → Except JsError PartResponse
  storeAdd : StoreAddNb → Except JsError (StoreAddOut StoreAddSuccess)
  put : String → List (String × String) → Nat
  uploadAdd : W32023Upload → Except JsError UploadAddReceipt

/-- Embedding of `migratePart` (src/w32023-to-w3up.js:150):
`signal?.throwIfAborted()`, fetch the part, derive the `store/add` `nb`
from the content-length, execute `store/add`; an `Err` receipt returns an
`UploadPartMigrationFailure` value, an `Ok` receipt runs
`uploadBlockForStoreAddSuccess` (whose thrown errors propagate) and
returns the success with its optional copy-response status. -/
def migratePart (env : MigrateEnv) (aborted : Bool) (fp : FetchableUploadPart) :
    Except JsError PartResult := do
  if aborted then throw (.dom "AbortError")
  let response ← env.fetch fp.part
  let addNb ← carPartToStoreAddNb fp.part response
  let out ← env.storeAdd addNb
  match out with
  | .error payload => return .failure fp.part fp.upload (.receiptError payload)
  | .ok storeAddSuccess =>
    match (uploadBlockForStoreAddSuccess storeAddSuccess env.put).2 with
    | .error e => throw e
    | .ok copy => return .success fp.part fp.upload storeAddSuccess copy

/-- Embedding of the `.catch` wrapper around `migratePart`
(src/w32023-to-w3up.js:45): an `AbortError` `DOMException` is rethrown;
any other caught error is represented as an `UploadPartMigrationFailure`
carrying the part cid, the owning upload, and the error as cause, and is
passed along as an ordinary item. -/
def migratePartCaught (env : MigrateEnv) (aborted : Bool) (fp : FetchableUploadPart) :
    Except JsError PartResult :=
  match migratePart env aborted fp with
  | .ok v => .ok v
  | .error e =>
    if isAbortError e then .error e
    else .ok (.failure fp.part fp.upload (.thrown e))

/-! ### Binder and pipeline run -/

/-- Terminal outcomes of the pipeline: `UploadMigrationSuccess` (upload,
parts map, `upload/add` receipt) or `UploadMigrationFailure` (upload,
parts map, cause) — src/w3up-migration.js. -/
inductive Outcome where
  | success (upload : W32023Upload) (parts : PartMap) (add : UploadAddReceipt)
  | failure (upload : W32023Upload) (parts : PartMap) (cause : Cause)
  deriving Repr, DecidableEq

/-- Upload whose outcome this is (`outcome.upload.cid` in the spec). -/
def Outcome.upload : Outcome → W32023Upload
  | .success u _ _ => u
  | .failure u _ _ => u

/-- Embedding of `transformInvokeUploadAddForMigratedUploadParts`
(src/w32023-to-w3up.js:434): execute `upload/add` for the upload (a
transport error from `execute` propagates); when `receipt.out.ok` is
falsy the function throws `new Error` with message `upload/add failure`
— it does not produce a failure outcome; otherwise it returns the
`UploadMigrationSuccess`. -/
def transformInvokeUploadAddForMigratedUploadParts (env : MigrateEnv)
    (upload : W32023Upload) (parts : PartMap) : Except JsError Outcome :=
  match env.uploadAdd upload with
  | .error e => .error e
  | .ok receipt =>
    if receipt.ok then .ok (.success upload parts receipt)
    else .error (.err "upload/add failure")

/-- Process the items the assembler emitted for one part event:
failures go to the side channel and are merged into the outcome stream
(the failure-splitting transform at src/w32023-to-w3up.js:59 plus the
merge loop), ready uploads run the binder, whose thrown error errors the
stream. Returns the outcomes emitted in arrival order, and the error
that terminated the stream when one was thrown. -/
def bindOutputs (env : MigrateEnv) : List CollectOutput → List Outcome × Option JsError
  | [] => ([], none)
  | .failure u parts cause :: rest =>
    let tail := bindOutputs env rest
    (.failure u parts cause :: tail.1, tail.2)
  | .ready u parts :: rest =>
    match transformInvokeUploadAddForMigratedUploadParts env u parts with
    | .error e => ([], some e)
    | .ok outcome =>
      let tail := bindOutputs env rest
      (outcome :: tail.1, tail.2)

/-- Run the post-fan-out pipeline over the sequence of part events in
source order (the deterministic sequential semantics; with
`concurrency = 1` this is the order the code processes them). Each event
passes through `migratePartCaught`, the assembler stage, the failure
splitter, and the binder. The run stops at the first stage error — a
`TransformStream` transform that throws errors the whole pipeline, and
the `migrate` generator rethrows it to the caller — returning the
outcomes already emitted together with the terminating error. -/
def runParts (env : MigrateEnv) (aborted : Bool) :
    List FetchableUploadPart → List Outcome × Option JsError
  | [] => ([], none)
  | fp :: rest =>
    match migratePartCaught env aborted fp with
    | .error e => ([], some e)
    | .ok r =>
      match bindOutputs env (collectStageTransform r) with
      | (outs, some e) => (outs, some e)
      | (outs, none) =>
        let tail := runParts env aborted rest
        (outs ++ tail.1, tail.2)

/-- Fan-out stage `transformUploadToFetchableUploadPart`
(src/w32023-to-w3up.js:330): one `FetchableUploadPart` per entry of
`upload.parts`, duplicates included, in input order. -/
def fanOut (uploads : List W32023Upload) : List FetchableUploadPart :=
  uploads.flatMap (fun u => u.parts.map (fun p => { part := p, upload := u }))

/-- Full sequential run of `migrate` (src/w32023-to-w3up.js:23) over a
finite source: fan out every upload to its part events and run the
pipeline. The first component is the stream of outcomes the generator
yields; a `some` second component is the error the generator throws to
the caller (the merge loop rethrows a rejected `reader.read()`). -/
def migrateRun (env : MigrateEnv) (aborted : Bool) (uploads : List W32023Upload) :
    List Outcome × Option JsError :=
  runParts env aborted (fanOut uploads)

/-! ### Migration log model -/

/-- One parsed line of a newline-delimited JSON migration log, reduced to
the fields `readUploadsFromUploadMigrationFailuresNdjson` reads: the
`type` discriminator and the `upload` field. -/
structure LogEvent where
  type : String
  upload : W32023Upload
  deriving Repr, DecidableEq

/-- Embedding of `UploadMigrationFailure.toJSON`
(src/w3up-migration.js:275): the serialized event has
`type: "UploadMigrationFailure"` and embeds the full source upload as its
`upload` field (unlike a part failure, which serializes only the cid). -/
def uploadMigrationFailureToJSON (upload : W32023Upload) : LogEvent :=
  { type := "UploadMigrationFailure", upload := upload }

/-- Embedding of `readUploadsFromUploadMigrationFailuresNdjson`
(src/w3up-migration.js:346): for every event of the log whose `type` is
`UploadMigrationFailure`, emit one line — the JSON serialization of the
event's `upload` field (represented by the upload value itself). -/
def readUploadsFromUploadMigrationFailuresNdjson (log : List LogEvent) : List W32023Upload :=
  (log.filter (fun e => e.type = "UploadMigrationFailure")).map (fun e => e.upload)

/-! ### Outcome-merging loop of `migrate` -/

/-- State of the merge loop at the top of an iteration
(src/w32023-to-w3up.js:76): the queue of items to yield, the `failures`
side array, and the `resultsDone` flag. -/
structure MergeState where
  queue : List Outcome
  failures : List Outcome
  resultsDone : Bool

/-- One completed `Promise.race` of the merge loop
(src/w32023-to-w3up.js:85). The race settles in one of three ways:
`reader.read()` resolved with a value (pushed onto the queue; streams
deliver a value whenever `done` is false), `reader.read()` resolved with
`done: true` (setting `resultsDone`), or the failure watcher returned —
which it does only after draining a nonempty `failures` array into the
queue (it pops from the end of `failures` and pushes, hence the
reversal). The read constructors carry a `drained` flag because the
watcher may have moved the failures into the queue before the read
settled the race. -/
inductive RaceStep : MergeState → MergeState → Prop where
  | readValue (s : MergeState) (v : Outcome) (drained : Bool) :
      RaceStep s
        { queue := (s.queue ++ if drained then s.failures.reverse else []) ++ [v],
          failures := if drained then [] else s.failures,
          resultsDone := s.resultsDone }
  | readDone (s : MergeState) (drained : Bool) :
      RaceStep s
        { queue := s.queue ++ if drained then s.failures.reverse else [],
          failures := if drained then [] else s.failures,
          resultsDone := true }
  | watcherReturned (s : MergeState) (f : Outcome) (fs : List Outcome)
      (h : s.failures = f :: fs) :
      RaceStep s
        { queue := s.queue ++ (f :: fs).reverse,
          failures := [],
          resultsDone := s.resultsDone }

/-! ### Concrete fixtures used to evaluate the model at specific inputs -/

/-- Environment in which every external call succeeds: fetches return a
content-length of 100, `store/add` answers `Ok` with status `done`,
presigned PUTs answer 201, and `upload/add` answers `Ok`. -/
def envAllOk : MigrateEnv where
  fetch := fun _ => .ok { contentLength := some "100", url := "u" }
  storeAdd := fun _ => .ok (.ok { status := "done", url := "", headers := [] })
  put := fun _ _ => 201
  uploadAdd := fun _ => .ok { ok := true }

/-- Environment identical to `envAllOk` except that the `upload/add`
receipt for the upload with cid `U2` is an `Err` (falsy `out.ok`). -/
def envBindFailU2 : MigrateEnv where
  fetch := fun _ => .ok { contentLength := some "100", url := "u" }
  storeAdd := fun _ => .ok (.ok { status := "done", url := "", headers := [] })
  put := fun _ _ => 201
  uploadAdd := fun u => .ok { ok := u.cid != "U2" }

/-- Environment whose part fetch throws a plain `Error`. -/
def envFetchBoom : MigrateEnv where
  fetch := fun _ => .error (.err "boom")
  storeAdd := fun _ => .ok (.ok { status := "done", url := "", headers := [] })
  put := fun _ _ => 201
  uploadAdd := fun _ => .ok { ok := true }

/-- Upload with two distinct parts. -/
def uploadAB : W32023Upload := { cid := "X", parts := ["A", "B"] }

/-- Upload whose parts list repeats one part cid. -/
def uploadPP : W32023Upload := { cid := "X", parts := ["P", "P"] }

/-- Single-part upload. -/
def uploadA : W32023Upload := { cid := "X", parts := ["A"] }

/-- Three single-part uploads for the binder-failure scenario. -/
def uploadU1 : W32023Upload := { cid := "U1", parts := ["A1"] }

/-- Second upload of the binder-failure scenario (its `upload/add` fails
under `envBindFailU2`). -/
def uploadU2 : W32023Upload := { cid := "U2", parts := ["A2"] }

/-- Third upload of the binder-failure scenario. -/
def uploadU3 : W32023Upload := { cid := "U3", parts := ["A3"] }

/-- Sample outcome value used to instantiate the merge-loop race step. -/
def sampleOutcome : Outcome := .failure uploadA [] (.thrown (.err "x"))

/-- Sample part result used to instantiate the assembler theorem. -/
def samplePartResult : PartResult := .failure "P" uploadPP (.thrown (.err "x"))

/-- Accumulator of the assembler after inserting the incoming result
under its part cid (the value of `partsForUpload` after
`partsForUpload.set(migratedPart.part, migratedPart)` at
src/w32023-to-w3up.js:245). -/
def collectCur (st : UploadsMap) (e : PartResult) : PartMap :=
  mapSet ((mapGet st e.upload.cid).getD []) e.part e

/-- Completion check of the assembler: no element of `upload.parts` is
missing from the accumulator (set membership, so duplicates collapse). -/
def collectCovered (st : UploadsMap) (e : PartResult) : Bool :=
  e.upload.parts.all (fun p => mapHas (collectCur st e) p)

/-! ## Theorems -/

/-- C1: evaluation of the pipeline at the failing input. The claim says
exactly one outcome with `upload.cid = U.cid` is emitted per consumed
upload, repeated part cids included, absent cancellation. The code emits
zero outcomes for an upload with two distinct parts (first conjunct: the
run ends cleanly with no outcome, because `CollectMigratedUploadParts`
rebuilds its accumulator empty on every event, so the completion check
never passes), and two outcomes for an upload whose parts list repeats
one cid (second conjunct). -/
theorem claim1_code_evaluation :
    migrateRun envAllOk false [uploadAB] = ([], none)
    ∧ (migrateRun envAllOk false [uploadPP]).1.map (fun o => o.upload.cid) = ["X", "X"] :=
  ⟨rfl, rfl⟩

/-- C2 counterexample: three single-part uploads whose parts all migrate,
with `upload/add` returning an `Err` receipt for the second. The claim
says the pipeline emits `[Success, Failure(cause=Bind), Success]`. The
code instead emits only the first success and then terminates with a
thrown `upload/add failure` error: no failure outcome is emitted for the
second upload and no outcome at all for the third. -/
theorem claim2_counterexample :
    migrateRun envBindFailU2 false [uploadU1, uploadU2, uploadU3] =
      ([.success uploadU1
          [("A1", .success "A1" uploadU1 { status := "done", url := "", headers := [] } none)]
          { ok := true }],
       some (.err "upload/add failure")) :=
  rfl

/-- C2 amended: when the `upload/add` receipt is `Err` (falsy `out.ok`)
the binder throws an `upload/add failure` error instead of emitting an
`UploadMigrationFailure` outcome; a transport error from the invocation
propagates unchanged; and a binder error terminates the pipeline run —
outcomes of later source items are not emitted, the error reaches the
caller of the `migrate` generator. -/
theorem claim2_amended_bind_error_throws :
    (∀ (env : MigrateEnv) (u : W32023Upload) (parts : PartMap) (r : UploadAddReceipt),
        env.uploadAdd u = .ok r → r.ok = false →
        transformInvokeUploadAddForMigratedUploadParts env u parts =
          .error (.err "upload/add failure"))
    ∧ (∀ (env : MigrateEnv) (u : W32023Upload) (parts : PartMap) (e : JsError),
        env.uploadAdd u = .error e →
        transformInvokeUploadAddForMigratedUploadParts env u parts = .error e)
    ∧ ∀ (env : MigrateEnv) (aborted : Bool) (fp : FetchableUploadPart)
        (rest : List FetchableUploadPart) (r : PartResult) (outs : List Outcome) (e : JsError),
        migratePartCaught env aborted fp = .ok r →
        bindOutputs env (collectStageTransform r) = (outs, some e) →
        runParts env aborted (fp :: rest) = (outs, some e) := by
  refine ⟨?_, ?_, ?_⟩
  · intro env u parts r h hr
    simp [transformInvokeUploadAddForMigratedUploadParts, h, hr]
  · intro env u parts e h
    simp [transformInvokeUploadAddForMigratedUploadParts, h]
  · intro env aborted fp rest r outs e h1 h2
    simp [runParts, h1, h2]

/-- C2 witness: the amended statement applied to the concrete
binder-failure scenario. -/
theorem claim2_amended_witness :
    transformInvokeUploadAddForMigratedUploadParts envBindFailU2 uploadU2 [] =
      .error (.err "upload/add failure") :=
  claim2_amended_bind_error_throws.1 envBindFailU2 uploadU2 [] { ok := false } rfl rfl

/-- C3: the catch wrapper around `migratePart` converts every thrown
error that is not an `AbortError` `DOMException` into an
`UploadPartMigrationFailure` carrying the part cid, the owning upload,
and the error as cause, passed downstream as an ordinary item (first
conjunct); the only errors the part stage lets escape are abort
errors (second conjunct). -/
theorem claim3_part_exception_isolation (env : MigrateEnv) (aborted : Bool)
    (fp : FetchableUploadPart) :
    (∀ e, migratePart env aborted fp = .error e → isAbortError e = false →
        migratePartCaught env aborted fp = .ok (.failure fp.part fp.upload (.thrown e)))
    ∧ ∀ e, migratePartCaught env aborted fp = .error e → isAbortError e = true := by
  constructor
  · intro e h hn
    simp [migratePartCaught, h, hn]
  · intro e h
    unfold migratePartCaught at h
    cases hm : migratePart env aborted fp with
    | ok v => rw [hm] at h; exact absurd h (by simp)
    | error e0 =>
      rw [hm] at h
      by_cases ha : isAbortError e0 = true
      · have he : e0 = e := by simpa [ha] using h
        exact he ▸ ha
      · simp [ha] at h

/-- C3 witness: a part whose fetch throws a plain `Error` becomes a part
failure with that error as cause. -/
theorem claim3_witness :
    migratePartCaught envFetchBoom false { part := "A", upload := uploadAB } =
      .ok (.failure "A" uploadAB (.thrown (.err "boom"))) :=
  (claim3_part_exception_isolation envFetchBoom false { part := "A", upload := uploadAB }).1
    (.err "boom") rfl rfl

/-- C4 counterexample: with the cancellation signal fired before a
single-part upload is processed, the claim says the generator ends
iteration cleanly and the in-flight part yields a `Cancelled` part
failure. The code instead rethrows the `AbortError` out of the part
stage, the stream errors, and the run terminates with the thrown abort
— no part-failure outcome is emitted. -/
theorem claim4_counterexample :
    migrateRun envAllOk true [uploadA] = ([], some (.dom "AbortError")) :=
  rfl

/-- C4 amended: when the cancellation signal has fired,
`signal?.throwIfAborted` makes `migratePart` throw an `AbortError`
`DOMException`, which the catch wrapper rethrows rather than converting
to a part failure (first conjunct), so any remaining part event makes
the pipeline run terminate with that abort error and emit nothing
further — the `migrate` generator surfaces cancellation by throwing the
abort to its caller, not by clean termination (second conjunct). -/
theorem claim4_amended_abort_rethrown :
    (∀ (env : MigrateEnv) (fp : FetchableUploadPart),
        migratePartCaught env true fp = .error (.dom "AbortError"))
    ∧ ∀ (env : MigrateEnv) (fp : FetchableUploadPart) (rest : List FetchableUploadPart),
        runParts env true (fp :: rest) = ([], some (.dom "AbortError")) :=
  ⟨fun _ _ => rfl, fun _ _ _ => rfl⟩

/-- C6: case analysis of `uploadBlockForStoreAddSuccess`. When the
`store/add` success status is `done`, no PUT is issued and no
copy-response status is returned; when it is `upload`, exactly one PUT
is issued to `ok.url` with headers `ok.headers`, a 2xx response status
is returned as the recorded copy status, and a non-2xx response makes
the function throw (which the part stage converts to a part failure);
any other status makes it throw without issuing a request. -/
theorem claim6_upload_block_cases (s : StoreAddSuccess)
    (put : String → List (String × String) → Nat) :
    (s.status = "done" → uploadBlockForStoreAddSuccess s put = ([], .ok none))
    ∧ (s.status = "upload" →
        (uploadBlockForStoreAddSuccess s put).1 = [{ url := s.url, headers := s.headers }]
        ∧ (200 ≤ put s.url s.headers ∧ put s.url s.headers < 300 →
            (uploadBlockForStoreAddSuccess s put).2 = .ok (some (put s.url s.headers)))
        ∧ (¬(200 ≤ put s.url s.headers ∧ put s.url s.headers < 300) →
            (uploadBlockForStoreAddSuccess s put).2 =
              .error (.err "error sending car bytes to url from store/add response")))
    ∧ (s.status ≠ "done" → s.status ≠ "upload" →
        uploadBlockForStoreAddSuccess s put =
          ([], .error (.err ("unexpected store/add success status: " ++ s.status)))) := by
  refine ⟨?_, ?_, ?_⟩
  · intro h
    simp [uploadBlockForStoreAddSuccess, h]
  · intro h
    refine ⟨?_, ?_, ?_⟩
    · simp [uploadBlockForStoreAddSuccess, h]
    · intro h2
      simp [uploadBlockForStoreAddSuccess, h, h2]
    · intro h2
      simp [uploadBlockForStoreAddSuccess, h, h2]
  · intro h1 h2
    simp [uploadBlockForStoreAddSuccess, h1, h2]

/-- C6 witness: a `store/add` success demanding an upload, with the PUT
answering 201, issues exactly one PUT and records copy status 201. -/
theorem claim6_witness :
    (uploadBlockForStoreAddSuccess { status := "upload", url := "u", headers := [] }
      (fun _ _ => 201)).1 = [{ url := "u", headers := [] }]
    ∧ (uploadBlockForStoreAddSuccess { status := "upload", url := "u", headers := [] }
      (fun _ _ => 201)).2 = .ok (some 201) := by
  have h := (claim6_upload_block_cases { status := "upload", url := "u", headers := [] }
    (fun _ _ => 201)).2.1 rfl
  exact ⟨h.1, h.2.1 (by decide)⟩

/-- C7 counterexample: a part-fetch response with `content-length: -5`.
The claim says deriving the `store/add` size fails for negative values;
the code parses `-5`, finds it truthy, and proceeds with a negative
size. -/
theorem claim7_counterexample :
    carPartToStoreAddNb "bagtest" { contentLength := some "-5", url := "r" } =
      .ok { link := "bagtest", size := -5 } ∧ (-5 : Int) < 0 :=
  ⟨rfl, by norm_num⟩

/-- C7 amended: deriving the `store/add` argument fails exactly when the
`content-length` header is absent, empty, unparsable by
`parseInt(·, 10)`, or parses to zero; on success the size is the parsed
integer, which is merely nonzero — negative values are accepted. -/
theorem claim7_amended_content_length (part : String) (response : PartResponse) :
    ((∃ e, carPartToStoreAddNb part response = .error e) ↔
      (response.contentLength = none ∨
        ∃ s, response.contentLength = some s ∧
          (s = "" ∨ jsParseIntDec s = none ∨ jsParseIntDec s = some 0)))
    ∧ ∀ nb, carPartToStoreAddNb part response = .ok nb →
        ∃ s n, response.contentLength = some s ∧ jsParseIntDec s = some n ∧ n ≠ 0 ∧
          nb = { link := part, size := n } := by
  cases hcl : response.contentLength with
  | none =>
    constructor
    · simp [carPartToStoreAddNb, hcl]
    · intro nb h
      simp [carPartToStoreAddNb, hcl] at h
  | some s =>
    by_cases hs : s = ""
    · subst hs
      constructor
      · simp [carPartToStoreAddNb, hcl]
      · intro nb h
        simp [carPartToStoreAddNb, hcl] at h
    · cases hp : jsParseIntDec s with
      | none =>
        constructor
        · simp [carPartToStoreAddNb, hcl, hs, hp]
        · intro nb h
          simp [carPartToStoreAddNb, hcl, hs, hp] at h
      | some n =>
        by_cases hn : n = 0
        · subst hn
          constructor
          · simp [carPartToStoreAddNb, hcl, hs, hp]
          · intro nb h
            simp [carPartToStoreAddNb, hcl, hs, hp] at h
        · constructor
          · constructor
            · rintro ⟨e, he⟩
              simp [carPartToStoreAddNb, hcl, hs, hp, hn] at he
            · rintro (h | ⟨s2, hs2, h2⟩)
              · exact absurd h (by simp)
              · obtain rfl : s = s2 := by simpa using hs2
                rcases h2 with h2 | h2 | h2
                · exact absurd h2 hs
                · rw [hp] at h2; exact absurd h2 (by simp)
                · rw [hp] at h2
                  obtain rfl : n = 0 := by simpa using h2
                  exact absurd rfl hn
          · intro nb h
            refine ⟨s, n, rfl, hp, hn, ?_⟩
            simp [carPartToStoreAddNb, hcl, hs, hp, hn] at h
            exact h.symm

/-- C7 witness: a response with `content-length: 7` proceeds with size 7. -/
theorem claim7_witness :
    ∃ s n, (some "7" : Option String) = some s ∧ jsParseIntDec s = some n ∧ n ≠ 0 ∧
      ({ link := "x", size := 7 } : StoreAddNb) = { link := "x", size := n } :=
  (claim7_amended_content_length "x" { contentLength := some "7", url := "" }).2
    { link := "x", size := 7 } rfl

/-- C9: evaluation at the failing input. The readback does extract
exactly one line per `UploadMigrationFailure` event, namely that event's
serialized `upload` field, and the serialized failure embeds the full
source upload (first two conjuncts). But feeding the one extracted
upload — whose parts list repeats one cid, as a real log can contain —
back into a migration run yields two outcomes, not one (third
conjunct), so the round-trip law of the claim fails. -/
theorem claim9_code_evaluation :
    readUploadsFromUploadMigrationFailuresNdjson [uploadMigrationFailureToJSON uploadPP] =
      [uploadPP]
    ∧ (uploadMigrationFailureToJSON uploadPP).upload = uploadPP
    ∧ (migrateRun envAllOk false
        (readUploadsFromUploadMigrationFailuresNdjson
          [uploadMigrationFailureToJSON uploadPP])).1.length = 2 :=
  ⟨rfl, rfl, rfl⟩

/-- C10: after any completed `Promise.race` of the merge loop, the queue
is non-empty or the results stream has reported done, so the guard that
throws `unexpected empty queue after race` is unreachable. -/
theorem claim10_race_invariant (s t : MergeState) (h : RaceStep s t) :
    t.queue ≠ [] ∨ t.resultsDone = true := by
  cases h with
  | readValue v drained => left; simp
  | readDone drained => right; rfl
  | watcherReturned f fs hf => left; simp

/-- C10 witness: the invariant at a concrete race completion in which the
reader delivered one value. -/
theorem claim10_witness :
    ({ queue := (([] : List Outcome) ++ if false then List.reverse [] else []) ++ [sampleOutcome],
       failures := if false then [] else [],
       resultsDone := false } : MergeState).queue ≠ []
    ∨ ({ queue := (([] : List Outcome) ++ if false then List.reverse [] else []) ++ [sampleOutcome],
         failures := if false then [] else [],
         resultsDone := false } : MergeState).resultsDone = true :=
  claim10_race_invariant { queue := [], failures := [], resultsDone := false } _
    (RaceStep.readValue { queue := [], failures := [], resultsDone := false } sampleOutcome false)

/-! ### Association-list map lemmas (shared helpers) -/

/-- Lookup on a cons cell. -/
theorem mapGet_cons {β : Type} (a : String × β) (m : List (String × β)) (k : String) :
    mapGet (a :: m) k = if a.1 = k then some a.2 else mapGet m k := by
  by_cases h : a.1 = k
  · rw [mapGet, List.find?_cons_of_pos _ (by simpa using h), if_pos h]
    rfl
  · rw [mapGet, List.find?_cons_of_neg _ (by simpa using h), if_neg h]
    rfl

/-- A key that is not present looks up to `none`. -/
theorem mapGet_eq_none {β : Type} (m : List (String × β)) (k : String)
    (h : mapHas m k = false) : mapGet m k = none := by
  induction m with
  | nil => rfl
  | cons a rest ih =>
    simp only [mapHas, List.any_cons, Bool.or_eq_false_iff, decide_eq_false_iff_not] at h
    rw [mapGet_cons, if_neg h.1]
    exact ih h.2

/-- Looking up the key just set yields the value just set. -/
theorem mapGet_mapSet_self {β : Type} (m : List (String × β)) (k : String) (v : β) :
    mapGet (mapSet m k v) k = some v := by
  induction m with
  | nil => simp [mapSet, mapGet, List.find?]
  | cons a rest ih =>
    by_cases h : a.1 = k
    · simp [mapSet, h, mapGet_cons]
    · simp only [mapSet, if_neg h]
      rw [mapGet_cons, if_neg h]
      exact ih

/-- Entries of the map after a set are the new entry or old entries. -/
theorem mem_of_mapSet {β : Type} {m : List (String × β)} {k : String} {v : β}
    {kv : String × β} (h : kv ∈ mapSet m k v) : kv.1 = k ∨ kv ∈ m := by
  induction m with
  | nil =>
    simp only [mapSet, List.mem_singleton] at h
    left; rw [h]
  | cons a rest ih =>
    by_cases ha : a.1 = k
    · simp only [mapSet, if_pos ha] at h
      rcases List.mem_cons.mp h with h1 | h1
      · left; rw [h1]
      · right; exact List.mem_cons_of_mem _ h1
    · simp only [mapSet, if_neg ha] at h
      rcases List.mem_cons.mp h with h1 | h1
      · right; rw [h1]; exact List.mem_cons_self _ _
      · rcases ih h1 with h2 | h2
        · left; exact h2
        · right; exact List.mem_cons_of_mem _ h2

/-- Keys present after a set were present before or are the set key. -/
theorem mapHas_of_mapSet {β : Type} {m : List (String × β)} {k k2 : String} {v : β}
    (h : mapHas (mapSet m k v) k2 = true) : mapHas m k2 = true ∨ k2 = k := by
  rw [mapHas, List.any_eq_true] at h
  obtain ⟨kv, hkv, hk⟩ := h
  have hk2 : kv.1 = k2 := by simpa using hk
  rcases mem_of_mapSet hkv with hkk | hm
  · right; exact hk2.symm.trans hkk
  · left
    rw [mapHas, List.any_eq_true]
    exact ⟨kv, hm, hk⟩

/-- Setting preserves distinctness of keys. -/
theorem mapSet_pairwise {β : Type} {m : List (String × β)} (k : String) (v : β)
    (h : m.Pairwise (fun a b => a.1 ≠ b.1)) :
    (mapSet m k v).Pairwise (fun a b => a.1 ≠ b.1) := by
  induction m with
  | nil => simp [mapSet]
  | cons a rest ih =>
    rw [List.pairwise_cons] at h
    obtain ⟨ha, hrest⟩ := h
    by_cases hk : a.1 = k
    · simp only [mapSet, if_pos hk]
      rw [List.pairwise_cons]
      exact ⟨fun b hb => by rw [← hk]; exact ha b hb, hrest⟩
    · simp only [mapSet, if_neg hk]
      rw [List.pairwise_cons]
      refine ⟨fun b hb => ?_, ih hrest⟩
      rcases mem_of_mapSet hb with h1 | h1
      · rw [h1]; exact hk
      · exact ha b h1

/-- A deleted key looks up to `none`. -/
theorem mapGet_mapDelete_self {β : Type} (m : List (String × β)) (k : String) :
    mapGet (mapDelete m k) k = none := by
  induction m with
  | nil => rfl
  | cons a rest ih =>
    by_cases h : a.1 = k
    · have hd : mapDelete (a :: rest) k = mapDelete rest k := by
        simp [mapDelete, List.filter_cons, h]
      rw [hd]; exact ih
    · have hd : mapDelete (a :: rest) k = a :: mapDelete rest k := by
        simp [mapDelete, List.filter_cons, h]
      rw [hd, mapGet_cons, if_neg h]
      exact ih

/-- Negated `all` as `any` of negations (shape of the assembler's
`missingPart` check). -/
theorem any_not_eq_not_all {α : Type} (l : List α) (p : α → Bool) :
    (l.any fun a => ! p a) = ! l.all p := by
  induction l with
  | nil => rfl
  | cons x l ih => simp [List.any_cons, List.all_cons, ih, Bool.not_and]

/-- Positive filter length is `any` (shape of the assembler's
`partFailureCount > 0` check). -/
theorem filter_pos_iff_any {α : Type} (l : List α) (f : α → Bool) :
    0 < (l.filter f).length ↔ l.any f = true := by
  induction l with
  | nil => simp
  | cons x l ih =>
    by_cases h : f x = true
    · simp [List.filter_cons, h]
    · simp [List.filter_cons, h, ih]

/-- C5: per-event behavior of `collectMigratedParts` over an arbitrary
accumulator state (folding this step over a delivered sequence gives the
whole-sequence property). Under the pipeline invariants that the keys
already accumulated for the upload are part cids of the upload and the
incoming result's part cid is one of the upload's parts: the result is
inserted keyed by its part cid; keys stay distinct (one entry per
distinct part cid); exactly one item is emitted exactly when the
received keys cover every distinct cid of `upload.parts`, at which point
the accumulator is removed from the state (otherwise it is retained
updated); and the emitted item is an `UploadMigrationFailure` whose
cause counts the failed entries out of `upload.parts.length` when any
received entry is a failure, the parts-ready value otherwise, in both
cases carrying the received map, whose keys then equal the distinct
parts of the upload. -/
theorem claim5_assembler_per_event (st : UploadsMap) (e : PartResult)
    (hsub : ∀ k, mapHas ((mapGet st e.upload.cid).getD []) k = true → k ∈ e.upload.parts)
    (hmem : e.part ∈ e.upload.parts)
    (hnodup : ((mapGet st e.upload.cid).getD []).Pairwise (fun a b => a.1 ≠ b.1)) :
    mapGet (collectCur st e) e.part = some e
    ∧ (collectCur st e).Pairwise (fun a b => a.1 ≠ b.1)
    ∧ (collectMigratedParts st e).2.length = (if collectCovered st e then 1 else 0)
    ∧ mapGet (collectMigratedParts st e).1 e.upload.cid =
        (if collectCovered st e then none else some (collectCur st e))
    ∧ (collectCovered st e = true →
        (∀ p, mapHas (collectCur st e) p = true ↔ p ∈ e.upload.parts)
        ∧ (collectMigratedParts st e).2 =
            [if (collectCur st e).any (fun kv => kv.2.isFailure) then
               CollectOutput.failure e.upload (collectCur st e)
                 (.someParts ((collectCur st e).filter (fun kv => kv.2.isFailure)).length
                   e.upload.parts.length)
             else CollectOutput.ready e.upload (collectCur st e)]) := by
  have hget1 : (mapGet (if mapHas st e.upload.cid then st
      else mapSet st e.upload.cid ([] : PartMap)) e.upload.cid).getD ([] : PartMap)
      = (mapGet st e.upload.cid).getD ([] : PartMap) := by
    by_cases hh : mapHas st e.upload.cid = true
    · rw [if_pos hh]
    · have hh2 : mapHas st e.upload.cid = false := by simpa using hh
      rw [if_neg hh, mapGet_mapSet_self, mapGet_eq_none st _ hh2]
      rfl
  have hred : collectMigratedParts st e =
      (if collectCovered st e then
        (mapDelete (if mapHas st e.upload.cid then st else mapSet st e.upload.cid [])
          e.upload.cid,
         if 0 < ((collectCur st e).filter (fun kv => kv.2.isFailure)).length then
           [CollectOutput.failure e.upload (collectCur st e)
             (.someParts ((collectCur st e).filter (fun kv => kv.2.isFailure)).length
               e.upload.parts.length)]
         else [CollectOutput.ready e.upload (collectCur st e)])
      else
        (mapSet (if mapHas st e.upload.cid then st else mapSet st e.upload.cid [])
          e.upload.cid (collectCur st e), [])) := by
    simp only [collectMigratedParts]
    rw [hget1]
    rw [show mapSet ((mapGet st e.upload.cid).getD ([] : PartMap)) e.part e
          = collectCur st e from rfl]
    rw [show (e.upload.parts.any fun part => ! mapHas (collectCur st e) part)
          = ! collectCovered st e from by
        rw [any_not_eq_not_all]; rfl]
    cases hcov : collectCovered st e
    · simp
    · simp
      split <;> rfl
  refine ⟨mapGet_mapSet_self _ _ _, mapSet_pairwise e.part e hnodup, ?_, ?_, ?_⟩
  · rw [hred]
    cases hcov : collectCovered st e
    · simp
    · simp only [if_pos rfl, if_true]
      by_cases hf : 0 < ((collectCur st e).filter (fun kv => kv.2.isFailure)).length
      · rw [if_pos hf]; rfl
      · rw [if_neg hf]; rfl
  · rw [hred]
    cases hcov : collectCovered st e
    · simp only [Bool.false_eq_true, if_false]
      exact mapGet_mapSet_self _ _ _
    · simp only [if_true]
      exact mapGet_mapDelete_self _ _
  · intro hcov
    constructor
    · intro p
      constructor
      · intro hp
        rcases mapHas_of_mapSet hp with h1 | h1
        · exact hsub p h1
        · rw [h1]; exact hmem
      · intro hp
        have hall := List.all_eq_true.mp hcov
        exact hall p hp
    · rw [hred, if_pos hcov]
      by_cases hf : ((collectCur st e).any (fun kv => kv.2.isFailure)) = true
      · rw [if_pos ((filter_pos_iff_any _ _).mpr hf), if_pos hf]
      · have hnf : ¬ 0 < ((collectCur st e).filter (fun kv => kv.2.isFailure)).length :=
          fun hc => hf ((filter_pos_iff_any _ _).mp hc)
        rw [if_neg hnf, if_neg hf]

/-- C5 witness: the assembler step applied to a concrete failed part
result arriving at an empty accumulator state. -/
theorem claim5_witness :
    mapGet (collectCur [] samplePartResult) samplePartResult.part = some samplePartResult
    ∧ (collectCur [] samplePartResult).Pairwise (fun a b => a.1 ≠ b.1)
    ∧ (collectMigratedParts [] samplePartResult).2.length =
        (if collectCovered [] samplePartResult then 1 else 0)
    ∧ mapGet (collectMigratedParts [] samplePartResult).1 samplePartResult.upload.cid =
        (if collectCovered [] samplePartResult then none
         else some (collectCur [] samplePartResult))
    ∧ (collectCovered [] samplePartResult = true →
        (∀ p, mapHas (collectCur [] samplePartResult) p = true ↔
            p ∈ samplePartResult.upload.parts)
        ∧ (collectMigratedParts [] samplePartResult).2 =
            [if (collectCur [] samplePartResult).any (fun kv => kv.2.isFailure) then
               CollectOutput.failure samplePartResult.upload (collectCur [] samplePartResult)
                 (.someParts ((collectCur [] samplePartResult).filter
                     (fun kv => kv.2.isFailure)).length
                   samplePartResult.upload.parts.length)
             else CollectOutput.ready samplePartResult.upload
               (collectCur [] samplePartResult)]) :=
  claim5_assembler_per_event [] samplePartResult
    (fun _ hk => nomatch hk)
    (List.mem_cons_self _ _)
    List.Pairwise.nil

end MigrateToW3up
